import Mathlib

/-!
Shallow embedding of the credential and authorization core of the
fatsecret-mcp server (TypeScript), covering:

* `src/oauth1.ts`: RFC 3986 percent-encoding, the OAuth 1.0a signature
  base string, and parameter assembly (`percentEncode`, `buildBaseString`,
  `buildOAuth1Params`, `requestToken`, `accessToken`).
* `src/index.ts` (`FatSecretMcpServer`): the OAuth2 bearer-token cache
  (`getOAuth2Token`), profile-auth guard (`ensureProfileAuth`), the
  config read-modify-write (`saveConfig`), and the auth tools
  (`setup_credentials`, `start_auth`, `complete_auth`).
* `src/http-server.ts`: the session registry (`handleMcpRequest` routing
  and the transport close handler).

Modelling conventions: JavaScript objects holding string parameters are
association lists with distinct keys; nondeterministic inputs (nonce,
timestamp, clock, network responses) are explicit arguments; HMAC-SHA1 is
abstracted by recording the exact base string and signing key that would
be fed to it, since no claim depends on digest bytes; JS truthiness of
optional strings (undefined, null and the empty string are falsy) is the
`truthy` predicate.  JS `Array.prototype.sort` with the default
comparator orders strings by code units; it is modelled by an insertion
sort over code points, which agrees with it on all strings drawn from the
Basic Multilingual Plane (and on all ASCII data appearing in OAuth
parameters).
-/

-- ## JS string primitives

/-- Code-point comparison of two character lists, mirroring the JS default
string comparison used by `Array.prototype.sort`. -/
def charListLe : List Char → List Char → Bool
  | [], _ => true
  | _ :: _, [] => false
  | a :: as, b :: bs =>
    if a.toNat < b.toNat then true
    else if b.toNat < a.toNat then false
    else charListLe as bs

/-- String comparison, the JS `<=` on strings. -/
def strLe (a b : String) : Bool := charListLe a.data b.data

/-- Insert into a sorted list, keeping it sorted with respect to `le`. -/
def insertSorted (le : α → α → Bool) (a : α) : List α → List α
  | [] => [a]
  | b :: bs => if le a b then a :: b :: bs else b :: insertSorted le a bs

/-- Insertion sort; models JS `Array.prototype.sort` (the call sites sort
lists with pairwise-distinct sort keys, so stability never matters). -/
def sortBy (le : α → α → Bool) : List α → List α
  | [] => []
  | a :: as => insertSorted le a (sortBy le as)

/-- ASCII uppercasing of one character, the effect of JS `toUpperCase` on
the ASCII range (HTTP methods are ASCII). -/
def toUpperChar (c : Char) : Char :=
  if c.isLower then Char.ofNat (c.toNat - 32) else c

/-- ASCII uppercasing of a string, modelling `method.toUpperCase()`. -/
def upperCase (s : String) : String := String.mk (s.data.map toUpperChar)

/-- JS truthiness of an optional string: `undefined` and `""` are falsy. -/
def truthy : Option String → Bool
  | none => false
  | some s => s != ""

/-- JS object spread of two string-parameter objects: keys of `base` keep
their position, values overridden by `overrides` when the key repeats;
keys only in `overrides` follow.  At every modelled call site the two key
sets are disjoint. -/
def jsMerge (base overrides : List (String × String)) : List (String × String) :=
  base.map (fun p => (p.1, (overrides.lookup p.1).getD p.2)) ++
    overrides.filter (fun q => (base.lookup q.1).isNone)

-- ## oauth1.ts: percent-encoding and the signature base string

/-- RFC 3986 unreserved characters: letters, digits, hyphen, underscore,
dot, tilde.  This is the exact set the source leaves unencoded: JS
`encodeURIComponent` additionally spares `! * squote ( )`, and the
`replace` in `percentEncode` then hex-escapes exactly those five. -/
def isUnreservedChar (c : Char) : Bool :=
  c.isAlpha || c.isDigit || c == '-' || c == '_' || c == '.' || c == '~'

/-- UTF-8 bytes of a code point, as used by `encodeURIComponent`. -/
def utf8Bytes (n : Nat) : List Nat :=
  if n < 128 then [n]
  else if n < 2048 then [192 + n / 64, 128 + n % 64]
  else if n < 65536 then [224 + n / 4096, 128 + n / 64 % 64, 128 + n % 64]
  else [240 + n / 262144, 128 + n / 4096 % 64, 128 + n / 64 % 64, 128 + n % 64]

/-- Uppercase hexadecimal digit. -/
def hexDigit (n : Nat) : Char :=
  ['0', '1', '2', '3', '4', '5', '6', '7', '8', '9',
   'A', 'B', 'C', 'D', 'E', 'F'].getD n '0'

/-- One percent-escaped byte, `%XX` with uppercase hex. -/
def byteToHexEscape (b : Nat) : List Char :=
  ['%', hexDigit (b / 16), hexDigit (b % 16)]

/-- Encoding of one character: unreserved characters pass through, every
other character becomes the percent-escapes of its UTF-8 bytes. -/
def encodeChar (c : Char) : List Char :=
  if isUnreservedChar c then [c]
  else (utf8Bytes c.toNat).foldr (fun b acc => byteToHexEscape b ++ acc) []

/-- `percentEncode` of `src/oauth1.ts`: `encodeURIComponent` followed by
hex-escaping `! * squote ( )`; the net effect is strict RFC 3986
percent-encoding of every non-unreserved character. -/
def percentEncode (s : String) : String :=
  String.mk (s.data.foldr (fun c acc => encodeChar c ++ acc) [])

/-- The sorted key list `Object.keys(params).sort()`. -/
def sortedKeys (params : List (String × String)) : List String :=
  sortBy strLe (params.map Prod.fst)

/-- The joined parameter string of `buildBaseString`: keys sorted by the
raw key, each entry rendered `encKey=encVal`, joined with ampersands. -/
def paramString (params : List (String × String)) : String :=
  String.intercalate "&"
    ((sortedKeys params).map
      (fun k => percentEncode k ++ "=" ++ percentEncode ((params.lookup k).getD "")))

/-- `buildBaseString` of `src/oauth1.ts`. -/
def buildBaseString (method url : String) (params : List (String × String)) : String :=
  upperCase method ++ "&" ++ percentEncode url ++ "&" ++ percentEncode (paramString params)

-- ## oauth1.ts: credentials and parameter assembly

structure OAuth1Credentials where
  consumerKey : String
  consumerSecret : String
  accessToken : Option String := none
  accessTokenSecret : Option String := none
deriving DecidableEq, Repr

/-- Result of the signing routine.  The HMAC-SHA1 digest is abstracted:
the record keeps the exact signed parameter set, base string and signing
key the source would feed to `crypto.createHmac`. -/
structure OAuth1SignResult where
  params : List (String × String)
  baseString : String
  signingKey : String
deriving DecidableEq, Repr

def OAUTH1_BASE_URL : String := "https://authentication.fatsecret.com/oauth"

def REQUEST_TOKEN_URL : String := OAUTH1_BASE_URL ++ "/request_token"

def AUTHORIZE_URL : String := OAUTH1_BASE_URL ++ "/authorize"

def ACCESS_TOKEN_URL : String := OAUTH1_BASE_URL ++ "/access_token"

/-- `buildOAuth1Params` of `src/oauth1.ts`, with nonce and timestamp as
explicit arguments (the source draws them from the RNG and clock).  The
oauth parameter set gains `oauth_token` exactly when a truthy access
token is present; the signing key is
`percentEncode(consumerSecret) & percentEncode(accessTokenSecret or empty)`. -/
def buildOAuth1Params (nonce timestamp method url : String)
    (credentials : OAuth1Credentials)
    (extraParams : List (String × String)) : OAuth1SignResult :=
  let oauthParams :=
    [("oauth_consumer_key", credentials.consumerKey),
     ("oauth_nonce", nonce),
     ("oauth_signature_method", "HMAC-SHA1"),
     ("oauth_timestamp", timestamp),
     ("oauth_version", "1.0")] ++
    (if truthy credentials.accessToken
     then [("oauth_token", credentials.accessToken.getD "")] else [])
  let allParams := jsMerge oauthParams extraParams
  { params := allParams
    baseString := buildBaseString method url allParams
    signingKey :=
      percentEncode credentials.consumerSecret ++ "&" ++
        percentEncode (credentials.accessTokenSecret.getD "") }

/-- The signed request-token call issued by `requestToken`: a GET against
the request-token endpoint with the `oauth_callback=oob` extra
parameter. -/
def requestTokenSigned (credentials : OAuth1Credentials) (nonce timestamp : String) :
    OAuth1SignResult :=
  buildOAuth1Params nonce timestamp "GET" REQUEST_TOKEN_URL credentials
    [("oauth_callback", "oob")]

/-- The signed access-token call issued by `accessToken`: the credentials
are extended with the pending request token and secret, and the extra
parameter is `oauth_verifier`. -/
def accessTokenSigned (credentials : OAuth1Credentials)
    (oauthToken oauthTokenSecret verifier nonce timestamp : String) : OAuth1SignResult :=
  buildOAuth1Params nonce timestamp "GET" ACCESS_TOKEN_URL
    { credentials with
      accessToken := some oauthToken, accessTokenSecret := some oauthTokenSecret }
    [("oauth_verifier", verifier)]

-- ## Claim-side renderings of the parameter string (C1)

/-- Worded from the claim: entries percent-encoded, sorted by encoded key
and then by encoded value for ties, joined as encKey=encVal with
ampersands. -/
def claimParamStringEncSorted (params : List (String × String)) : String :=
  String.intercalate "&"
    ((sortBy
        (fun p q => if p.1 == q.1 then strLe p.2 q.2 else strLe p.1 q.1)
        (params.map (fun p => (percentEncode p.1, percentEncode p.2)))).map
      (fun p => p.1 ++ "=" ++ p.2))

/-- The base string the claim describes: uppercased method, encoded URL
and encoded parameter string (with the claim-side entry order). -/
def claimBaseStringEncSorted (method url : String) (params : List (String × String)) : String :=
  upperCase method ++ "&" ++ percentEncode url ++ "&" ++
    percentEncode (claimParamStringEncSorted params)

/-- The amended rendering: entries sorted by the raw key (pairs sorted,
then encoded), which is what the source computes.  Keys of a JS object
are pairwise distinct, so no tie-break is ever consulted. -/
def rawKeySortedParamString (params : List (String × String)) : String :=
  String.intercalate "&"
    ((sortBy (fun p q => strLe p.1 q.1) params).map
      (fun p => percentEncode p.1 ++ "=" ++ percentEncode p.2))

-- ## index.ts: persisted config and server state

/-- The persisted `~/.fatsecret-mcp/config.json` record (`interface Config`);
every field optional. -/
structure Config where
  clientId : Option String := none
  clientSecret : Option String := none
  consumerSecret : Option String := none
  accessToken : Option String := none
  accessTokenSecret : Option String := none
deriving DecidableEq, Repr

/-- Field-wise JS object spread: a field present in the update wins,
an absent field keeps the existing value. -/
def mergeField (existing update : Option String) : Option String :=
  match update with
  | some v => some v
  | none => existing

/-- The merge `spread existing, then spread updates` performed by
`saveConfig` on the persisted record. -/
def mergeConfig (existing updates : Config) : Config where
  clientId := mergeField existing.clientId updates.clientId
  clientSecret := mergeField existing.clientSecret updates.clientSecret
  consumerSecret := mergeField existing.consumerSecret updates.consumerSecret
  accessToken := mergeField existing.accessToken updates.accessToken
  accessTokenSecret := mergeField existing.accessTokenSecret updates.accessTokenSecret

/-- Mutable state of one `FatSecretMcpServer` (one Tenant): in-memory
credential fields, the OAuth2 bearer cache, the pending OAuth 1.0 request
token, and the contents of the persisted config file. -/
structure ServerState where
  clientId : String
  clientSecret : String
  oauth2Token : Option String
  oauth2TokenExpiry : Int
  oauth1Credentials : OAuth1Credentials
  pendingOAuth : Option (String × String)
  config : Config
deriving DecidableEq, Repr

/-- `hasApiCredentials`: all three consumer credentials truthy. -/
def hasApiCredentials (st : ServerState) : Bool :=
  st.clientId != "" && st.clientSecret != "" && st.oauth1Credentials.consumerSecret != ""

/-- `saveConfig(updates)`: read the existing persisted record, merge the
update over it field by field, write the result back. -/
def saveConfig (st : ServerState) (updates : Config) : ServerState :=
  { st with config := mergeConfig st.config updates }

-- ## index.ts: OAuth2 token cache (getOAuth2Token)

/-- The cache-validity test of `getOAuth2Token`: a truthy cached token
whose stored expiry lies in the future (the stored expiry already has the
60-second safety margin subtracted at caching time). -/
def oauth2CacheFresh (st : ServerState) (now : Int) : Bool :=
  truthy st.oauth2Token && decide (now < st.oauth2TokenExpiry)

/-- Outcome of the client-credentials grant `fetch`, an explicit input. -/
inductive TokenFetchOutcome where
  | ok (accessToken : String) (expiresIn : Int)
  | httpError (status : Nat) (body : String)
deriving DecidableEq, Repr

/-- Errors `getOAuth2Token` can throw. -/
inductive GetTokenError where
  | notConfigured
  | upstream (status : Nat) (body : String)
deriving DecidableEq, Repr

/-- Value-or-error outcome of `getOAuth2Token`. -/
inductive TokenOutcome where
  | token (value : String)
  | err (e : GetTokenError)
deriving DecidableEq, Repr

structure GetTokenResult where
  outcome : TokenOutcome
  state : ServerState
  networkCalled : Bool
deriving DecidableEq, Repr

/-- `getOAuth2Token` of `src/index.ts`: credentials guard, cache check,
then the client-credentials grant; on success the token is cached with
expiry `now + (expiresIn - 60) * 1000` milliseconds, on an HTTP error the
call throws and the cache is left untouched. -/
def getOAuth2Token (st : ServerState) (now : Int) (grant : TokenFetchOutcome) :
    GetTokenResult :=
  if !hasApiCredentials st then
    { outcome := .err .notConfigured, state := st, networkCalled := false }
  else if oauth2CacheFresh st now then
    { outcome := .token (st.oauth2Token.getD ""), state := st, networkCalled := false }
  else
    match grant with
    | .httpError s b =>
      { outcome := .err (.upstream s b), state := st, networkCalled := true }
    | .ok tok expiresIn =>
      { outcome := .token tok
        state :=
          { st with oauth2Token := some tok
                    oauth2TokenExpiry := now + (expiresIn - 60) * 1000 }
        networkCalled := true }

/-- Worded from the claim, for comparison with the source: same cache and
error behaviour, but the freshness guard is read literally as
`now < expiresAt - margin` against the stored `expiresAt` field, with the
60-second margin in milliseconds. -/
def claimGetOAuth2Token (st : ServerState) (now : Int) (grant : TokenFetchOutcome) :
    GetTokenResult :=
  if !hasApiCredentials st then
    { outcome := .err .notConfigured, state := st, networkCalled := false }
  else if truthy st.oauth2Token && decide (now < st.oauth2TokenExpiry - 60 * 1000) then
    { outcome := .token (st.oauth2Token.getD ""), state := st, networkCalled := false }
  else
    match grant with
    | .httpError s b =>
      { outcome := .err (.upstream s b), state := st, networkCalled := true }
    | .ok tok expiresIn =>
      { outcome := .token tok
        state :=
          { st with oauth2Token := some tok
                    oauth2TokenExpiry := now + (expiresIn - 60) * 1000 }
        networkCalled := true }

-- ## index.ts: profile-auth guard and the profile middleware

inductive ProfileAuthError where
  | notConfigured
  | notAuthenticated
deriving DecidableEq, Repr

/-- `ensureProfileAuth`: the consumer-credentials guard first, then the
user-token guard (both token and secret must be truthy). -/
def ensureProfileAuth (st : ServerState) : Option ProfileAuthError :=
  if !hasApiCredentials st then some .notConfigured
  else if !(truthy st.oauth1Credentials.accessToken &&
            truthy st.oauth1Credentials.accessTokenSecret) then
    some .notAuthenticated
  else none

inductive ProfileCallOutcome where
  | errored (e : ProfileAuthError)
  | sent (signed : OAuth1SignResult)
deriving DecidableEq, Repr

/-- One profile-API tool call through `oauth1Middleware`: the middleware
runs `ensureProfileAuth` before signing, and the HTTP request is issued
only when the middleware returns a request.  The second component counts
network calls reaching the remote collaborator. -/
def profileCall (st : ServerState) (nonce timestamp method urlPath : String)
    (existingParams : List (String × String)) : ProfileCallOutcome × Nat :=
  match ensureProfileAuth st with
  | some e => (.errored e, 0)
  | none =>
    (.sent (buildOAuth1Params nonce timestamp method urlPath
        st.oauth1Credentials existingParams), 1)

-- ## index.ts: auth tools

/-- Outcome of the remote request-token exchange, an explicit input. -/
inductive RequestTokenOutcome where
  | ok (oauthToken oauthTokenSecret : String)
  | httpError (status : Nat) (body : String)
deriving DecidableEq, Repr

inductive StartAuthOutcome where
  | notConfigured
  | upstreamError (status : Nat) (body : String)
  | ok (authorizationUrl : String)
deriving DecidableEq, Repr

structure StartAuthResult where
  outcome : StartAuthOutcome
  state : ServerState
  networkCalled : Bool
deriving DecidableEq, Repr

/-- The `start_auth` tool: credentials guard, remote request-token call,
then the fresh pending token overwrites whatever was pending. -/
def start_auth (st : ServerState) (upstream : RequestTokenOutcome) : StartAuthResult :=
  if !hasApiCredentials st then
    { outcome := .notConfigured, state := st, networkCalled := false }
  else
    match upstream with
    | .httpError s b =>
      { outcome := .upstreamError s b, state := st, networkCalled := true }
    | .ok tok sec =>
      { outcome := .ok (AUTHORIZE_URL ++ "?oauth_token=" ++ tok)
        state := { st with pendingOAuth := some (tok, sec) }
        networkCalled := true }

/-- Outcome of the remote access-token exchange, an explicit input. -/
inductive ExchangeOutcome where
  | ok (accessToken accessTokenSecret : String)
  | httpError (status : Nat) (body : String)
deriving DecidableEq, Repr

inductive CompleteAuthOutcome where
  | noPending
  | upstreamError (status : Nat) (body : String)
  | success
deriving DecidableEq, Repr

structure CompleteAuthResult where
  outcome : CompleteAuthOutcome
  state : ServerState
  networkCalled : Bool
deriving DecidableEq, Repr

/-- The `complete_auth` tool: without a pending token it throws before
any network call; on upstream failure nothing is mutated (the pending
token survives); on success the tokens are persisted via `saveConfig`,
installed into the live credentials, and the pending slot is cleared. -/
def complete_auth (st : ServerState) (upstream : ExchangeOutcome) : CompleteAuthResult :=
  match st.pendingOAuth with
  | none => { outcome := .noPending, state := st, networkCalled := false }
  | some _ =>
    match upstream with
    | .httpError s b =>
      { outcome := .upstreamError s b, state := st, networkCalled := true }
    | .ok tok sec =>
      { outcome := .success
        state :=
          let saved := saveConfig st { accessToken := some tok, accessTokenSecret := some sec }
          { saved with
            oauth1Credentials :=
              { saved.oauth1Credentials with
                accessToken := some tok, accessTokenSecret := some sec }
            pendingOAuth := none }
        networkCalled := true }

/-- The signed request `complete_auth` sends when a pending token exists:
`accessToken(oauth1Credentials, pending.token, pending.secret, verifier)`. -/
def completeAuthExchange (st : ServerState) (verifier nonce timestamp : String) :
    Option OAuth1SignResult :=
  st.pendingOAuth.map
    (fun p => accessTokenSigned st.oauth1Credentials p.1 p.2 verifier nonce timestamp)

/-- The `setup_credentials` tool: installs the consumer credentials,
resets the OAuth2 bearer cache, and persists the three credential fields
through the `saveConfig` merge.  The user access token and the pending
request token are not touched. -/
def setup_credentials (st : ServerState)
    (client_id client_secret consumer_secret : String) : ServerState :=
  let st1 :=
    { st with
      clientId := client_id
      clientSecret := client_secret
      oauth1Credentials :=
        { st.oauth1Credentials with
          consumerKey := client_id, consumerSecret := consumer_secret }
      oauth2Token := none
      oauth2TokenExpiry := 0 }
  saveConfig st1
    { clientId := some client_id, clientSecret := some client_secret,
      consumerSecret := some consumer_secret }

-- ## http-server.ts: session registry

/-- The `sessions` map of `src/http-server.ts`; keys are session ids. -/
abbrev SessionRegistry := List (String × ServerState)

inductive RouteOutcome where
  | handled (sessionId : String)
  | notFound (httpStatus : Nat) (jsonRpcCode : Int)
  | newSession
deriving DecidableEq, Repr

/-- `handleMcpRequest` routing: a request carrying a session id is
delegated to that session when registered, otherwise answered with a 404
JSON-RPC error response (code -32000); a request without a session id
starts a fresh session. -/
def route (sessions : SessionRegistry) (sessionId : Option String) : RouteOutcome :=
  match sessionId with
  | none => .newSession
  | some sid =>
    match sessions.lookup sid with
    | some _ => .handled sid
    | none => .notFound 404 (-32000)

/-- The `transport.onclose` handler: the session id is deleted from the
registry, discarding its Tenant. -/
def closeSession (sessions : SessionRegistry) (sid : String) : SessionRegistry :=
  sessions.filter (fun p => p.1 != sid)

-- ## Cooperative-interleaving model of concurrent getOAuth2Token calls

/-- One in-flight `getOAuth2Token` invocation: phase 0 has not run yet,
phase 1 is suspended at the grant `fetch`, phase 2 has returned. -/
structure CallerView where
  phase : Nat
  result : Option String
deriving DecidableEq, Repr

/-- Shared cache plus the in-flight callers and the number of grant
requests issued upstream. -/
structure ConcurrentRun where
  st : ServerState
  callers : List CallerView
  grants : Nat
deriving DecidableEq, Repr

/-- Run caller `i` up to its next suspension point, mirroring the
synchronous segments of `getOAuth2Token` (credentials assumed
configured, as in the claim scenario): phase 0 checks the shared cache
and either returns the cached token or issues a grant and suspends;
phase 1 resumes after the grant response, writes the shared cache and
returns the token of its own grant (`tokens.getD i`). -/
def stepCaller (tokens : List String) (expiresIn now : Int) (r : ConcurrentRun)
    (i : Nat) : ConcurrentRun :=
  match r.callers.get? i with
  | none => r
  | some c =>
    if c.phase == 0 then
      if oauth2CacheFresh r.st now then
        { r with callers := r.callers.set i ⟨2, r.st.oauth2Token⟩ }
      else
        { r with callers := r.callers.set i ⟨1, none⟩, grants := r.grants + 1 }
    else if c.phase == 1 then
      { r with
        st :=
          { r.st with
            oauth2Token := some (tokens.getD i "")
            oauth2TokenExpiry := now + (expiresIn - 60) * 1000 }
        callers := r.callers.set i ⟨2, some (tokens.getD i "")⟩ }
    else r

/-- Execute a cooperative schedule: at each step the named caller runs to
its next suspension point. -/
def runSchedule (tokens : List String) (expiresIn now : Int) (sched : List Nat)
    (r : ConcurrentRun) : ConcurrentRun :=
  sched.foldl (stepCaller tokens expiresIn now) r

-- ## Concrete states used by witnesses and counterexamples

/-- A server with nothing configured (fresh HTTP-mode Tenant). -/
def stEmpty : ServerState :=
  { clientId := "", clientSecret := "", oauth2Token := none, oauth2TokenExpiry := 0,
    oauth1Credentials := { consumerKey := "", consumerSecret := "" },
    pendingOAuth := none, config := {} }

/-- Consumer credentials configured, no user token, empty bearer cache. -/
def stConfigured : ServerState :=
  { clientId := "id", clientSecret := "sec", oauth2Token := none, oauth2TokenExpiry := 0,
    oauth1Credentials := { consumerKey := "id", consumerSecret := "cs" },
    pendingOAuth := none, config := {} }

/-- Configured, with a cached bearer token stored to expire at 100000 ms. -/
def stCached : ServerState :=
  { stConfigured with oauth2Token := some "T", oauth2TokenExpiry := 100000 }

/-- Configured, with a pending request token from a prior start. -/
def stPending : ServerState :=
  { stConfigured with pendingOAuth := some ("rt", "rs") }

/-- Unconfigured server whose persisted record already holds a clientId. -/
def stClientIdOnly : ServerState :=
  { stEmpty with config := { clientId := some "Y" } }

/-- OAuth 1.0 credentials of a Tenant in the Authorized state. -/
def authorizedCreds : OAuth1Credentials :=
  { consumerKey := "ck", consumerSecret := "cs",
    accessToken := some "A", accessTokenSecret := some "S" }

/-- Two callers about to enter `getOAuth2Token` over an empty cache. -/
def concTwoCallers : ConcurrentRun :=
  { st := stConfigured, callers := [⟨0, none⟩, ⟨0, none⟩], grants := 0 }

-- ## Helper lemmas: insertion sort

theorem perm_insertSorted (le : α → α → Bool) (a : α) (l : List α) :
    (insertSorted le a l).Perm (a :: l) := by
  induction l with
  | nil => exact List.Perm.refl _
  | cons b bs ih =>
    rw [insertSorted]
    split
    · exact List.Perm.refl _
    · exact (ih.cons b).trans (List.Perm.swap a b bs)

theorem sortBy_perm (le : α → α → Bool) (l : List α) : (sortBy le l).Perm l := by
  induction l with
  | nil => exact List.Perm.refl _
  | cons a as ih =>
    exact (perm_insertSorted le a (sortBy le as)).trans (ih.cons a)

theorem pairwise_insertSorted (le : α → α → Bool)
    (htrans : ∀ a b c, le a b = true → le b c = true → le a c = true)
    (htotal : ∀ a b, le a b = true ∨ le b a = true)
    (a : α) (l : List α) (h : l.Pairwise (fun x y => le x y = true)) :
    (insertSorted le a l).Pairwise (fun x y => le x y = true) := by
  induction l with
  | nil => simp [insertSorted]
  | cons b bs ih =>
    rcases List.pairwise_cons.mp h with ⟨hb, hbs⟩
    rw [insertSorted]
    split
    case isTrue hab =>
      refine List.pairwise_cons.mpr ⟨?_, h⟩
      intro y hy
      rcases List.mem_cons.mp hy with rfl | hmem
      · exact hab
      · exact htrans a b y hab (hb y hmem)
    case isFalse hab =>
      have hba : le b a = true := (htotal a b).resolve_left hab
      refine List.pairwise_cons.mpr ⟨?_, ih hbs⟩
      intro y hy
      rcases List.mem_cons.mp ((perm_insertSorted le a bs).mem_iff.mp hy) with rfl | hmem
      · exact hba
      · exact hb y hmem

theorem sortBy_pairwise (le : α → α → Bool)
    (htrans : ∀ a b c, le a b = true → le b c = true → le a c = true)
    (htotal : ∀ a b, le a b = true ∨ le b a = true)
    (l : List α) : (sortBy le l).Pairwise (fun x y => le x y = true) := by
  induction l with
  | nil => simp [sortBy]
  | cons a as ih => exact pairwise_insertSorted le htrans htotal a (sortBy le as) ih

-- ## Helper lemmas: the code-point string order

theorem charListLe_total (l1 l2 : List Char) :
    charListLe l1 l2 = true ∨ charListLe l2 l1 = true := by
  induction l1 generalizing l2 with
  | nil => left; rfl
  | cons a as ih =>
    cases l2 with
    | nil => right; rfl
    | cons b bs =>
      rcases Nat.lt_trichotomy a.toNat b.toNat with h | h | h
      · left; simp [charListLe, h]
      · have h1 : ¬a.toNat < b.toNat := by omega
        have h2 : ¬b.toNat < a.toNat := by omega
        rcases ih bs with hc | hc
        · left; simp [charListLe, h1, h2, hc]
        · right; simp [charListLe, h1, h2, hc]
      · right; simp [charListLe, h]

theorem charListLe_trans (l1 : List Char) :
    ∀ l2 l3, charListLe l1 l2 = true → charListLe l2 l3 = true →
      charListLe l1 l3 = true := by
  induction l1 with
  | nil => intro l2 l3 _ _; rfl
  | cons a as ih =>
    intro l2 l3 h12 h23
    cases l2 with
    | nil => simp [charListLe] at h12
    | cons b bs =>
      cases l3 with
      | nil => simp [charListLe] at h23
      | cons c cs =>
        simp only [charListLe] at h12 h23 ⊢
        by_cases hab : a.toNat < b.toNat
        · by_cases hbc : b.toNat < c.toNat
          · have hac : a.toNat < c.toNat := by omega
            simp [hac]
          · by_cases hcb : c.toNat < b.toNat
            · simp [hbc, hcb] at h23
            · have hac : a.toNat < c.toNat := by omega
              simp [hac]
        · by_cases hba : b.toNat < a.toNat
          · simp [hab, hba] at h12
          · by_cases hbc : b.toNat < c.toNat
            · have hac : a.toNat < c.toNat := by omega
              simp [hac]
            · by_cases hcb : c.toNat < b.toNat
              · simp [hbc, hcb] at h23
              · have h1 : ¬a.toNat < c.toNat := by omega
                have h2 : ¬c.toNat < a.toNat := by omega
                simp [hab, hba] at h12
                simp [hbc, hcb] at h23
                simp [h1, h2]
                exact ih bs cs h12 h23

theorem charListLe_antisymm (l1 : List Char) :
    ∀ l2, charListLe l1 l2 = true → charListLe l2 l1 = true → l1 = l2 := by
  induction l1 with
  | nil =>
    intro l2 _ h21
    cases l2 with
    | nil => rfl
    | cons b bs => simp [charListLe] at h21
  | cons a as ih =>
    intro l2 h12 h21
    cases l2 with
    | nil => simp [charListLe] at h12
    | cons b bs =>
      by_cases hab : a.toNat < b.toNat
      · have h2 : ¬b.toNat < a.toNat := by omega
        simp [charListLe, hab, h2] at h21
      · by_cases hba : b.toNat < a.toNat
        · simp [charListLe, hab, hba] at h12
        · have hn : a.toNat = b.toNat := by omega
          have heq : a = b := Char.eq_of_val_eq (UInt32.ext hn)
          simp only [charListLe, if_neg hab, if_neg hba] at h12 h21
          rw [heq, ih bs h12 h21]

theorem strLe_total (a b : String) : strLe a b = true ∨ strLe b a = true :=
  charListLe_total a.data b.data

theorem strLe_trans (a b c : String) (h1 : strLe a b = true) (h2 : strLe b c = true) :
    strLe a c = true :=
  charListLe_trans a.data b.data c.data h1 h2

theorem strLe_antisymm (a b : String) (h1 : strLe a b = true) (h2 : strLe b a = true) :
    a = b := by
  have h := charListLe_antisymm a.data b.data h1 h2
  cases a; cases b; congr

-- ## Helper lemmas: ampersand-freeness of percent-encoded output

theorem getD_mem_or_eq (l : List Char) (n : Nat) (d : Char) :
    l.getD n d ∈ l ∨ l.getD n d = d := by
  induction l generalizing n with
  | nil => right; rfl
  | cons a as ih =>
    cases n with
    | zero => left; exact List.mem_cons_self a as
    | succ m => exact (ih m).imp (List.mem_cons_of_mem a) id

theorem hexDigit_ne_amp (n : Nat) : hexDigit n ≠ '&' := by
  intro h
  rcases getD_mem_or_eq
      ['0', '1', '2', '3', '4', '5', '6', '7', '8', '9',
       'A', 'B', 'C', 'D', 'E', 'F'] n '0' with hm | he
  · rw [show ['0', '1', '2', '3', '4', '5', '6', '7', '8', '9',
        'A', 'B', 'C', 'D', 'E', 'F'].getD n '0' = hexDigit n from rfl, h] at hm
    exact absurd hm (by decide)
  · rw [show ['0', '1', '2', '3', '4', '5', '6', '7', '8', '9',
        'A', 'B', 'C', 'D', 'E', 'F'].getD n '0' = hexDigit n from rfl, h] at he
    exact absurd he (by decide)

theorem amp_not_mem_byteToHexEscape (b : Nat) : '&' ∉ byteToHexEscape b := by
  intro h
  rcases List.mem_cons.mp h with h1 | h2
  · exact absurd h1 (by decide)
  · rcases List.mem_cons.mp h2 with h3 | h4
    · exact hexDigit_ne_amp (b / 16) h3.symm
    · rcases List.mem_singleton.mp h4 with h5
      exact hexDigit_ne_amp (b % 16) h5.symm

theorem amp_not_mem_hexFold (bs : List Nat) :
    '&' ∉ bs.foldr (fun b acc => byteToHexEscape b ++ acc) [] := by
  induction bs with
  | nil => simp
  | cons b rest ih =>
    intro h
    rcases List.mem_append.mp h with h1 | h2
    · exact amp_not_mem_byteToHexEscape b h1
    · exact ih h2

theorem amp_not_mem_encodeChar (c : Char) : '&' ∉ encodeChar c := by
  unfold encodeChar
  split
  case isTrue h =>
    intro hm
    rw [← List.mem_singleton.mp hm] at h
    exact absurd h (by decide)
  case isFalse _ => exact amp_not_mem_hexFold (utf8Bytes c.toNat)

theorem amp_not_mem_percentEncode (s : String) : '&' ∉ (percentEncode s).data := by
  show '&' ∉ s.data.foldr (fun c acc => encodeChar c ++ acc) []
  induction s.data with
  | nil => simp
  | cons c cs ih =>
    intro h
    rcases List.mem_append.mp h with h1 | h2
    · exact amp_not_mem_encodeChar c h1
    · exact ih h2

-- ## Helper lemmas: the two renderings of the parameter string agree

theorem lookup_eq_of_mem (params : List (String × String))
    (h : (params.map Prod.fst).Nodup) (p : String × String) (hp : p ∈ params) :
    params.lookup p.1 = some p.2 := by
  induction params with
  | nil => cases hp
  | cons q qs ih =>
    simp only [List.map_cons, List.nodup_cons] at h
    rcases List.mem_cons.mp hp with rfl | hmem
    · simp [List.lookup]
    · have hne : p.1 ≠ q.1 := fun e => h.1 (e ▸ List.mem_map_of_mem Prod.fst hmem)
      have hb : (p.1 == q.1) = false := beq_eq_false_iff_ne.mpr hne
      simp only [List.lookup, hb]
      exact ih h.2 hmem

theorem sortedKeys_eq_sorted_pairs (params : List (String × String))
    (h : (params.map Prod.fst).Nodup) :
    sortedKeys params = (sortBy (fun p q => strLe p.1 q.1) params).map Prod.fst := by
  have hperm1 : (sortedKeys params).Perm (params.map Prod.fst) := sortBy_perm _ _
  have hperm2 :
      ((sortBy (fun p q => strLe p.1 q.1) params).map Prod.fst).Perm
        (params.map Prod.fst) :=
    (sortBy_perm _ _).map _
  have hp1 : (sortedKeys params).Pairwise (fun x y => strLe x y = true) :=
    sortBy_pairwise strLe strLe_trans strLe_total _
  have hp2 :
      ((sortBy (fun p q => strLe p.1 q.1) params).map Prod.fst).Pairwise
        (fun x y => strLe x y = true) := by
    refine List.Pairwise.map Prod.fst (fun a b hab => hab) ?_
    exact sortBy_pairwise _
      (fun a b c h1 h2 => strLe_trans a.1 b.1 c.1 h1 h2)
      (fun a b => strLe_total a.1 b.1) params
  have hnd1 : (sortedKeys params).Nodup := hperm1.nodup_iff.mpr h
  have hnd2 : ((sortBy (fun p q => strLe p.1 q.1) params).map Prod.fst).Nodup :=
    hperm2.nodup_iff.mpr h
  haveI : IsAntisymm String (fun x y => strLe x y = true ∧ x ≠ y) :=
    ⟨fun a b h1 h2 => strLe_antisymm a b h1.1 h2.1⟩
  exact List.eq_of_perm_of_sorted (hperm1.trans hperm2.symm)
    (hp1.and hnd1) (hp2.and hnd2)

theorem paramString_eq_rawKeySorted (params : List (String × String))
    (h : (params.map Prod.fst).Nodup) :
    paramString params = rawKeySortedParamString params := by
  unfold paramString rawKeySortedParamString
  rw [sortedKeys_eq_sorted_pairs params h, List.map_map]
  congr 1
  refine List.map_congr_left ?_
  intro p hp
  have hp' : p ∈ params := (sortBy_perm _ _).mem_iff.mp hp
  simp [Function.comp, lookup_eq_of_mem params h p hp']

-- ## C1: the signature base string

/-- C1 (amended): for every method, URL and parameter map with distinct
keys, the signature base string is exactly three ampersand-joined
segments: the uppercased method, the percent-encoded URL and the
percent-encoded parameter string, where the parameter string
percent-encodes every key and value per RFC 3986 unreserved rules (space
becomes %20, never +; bang, star, apostrophe and parentheses become hex
escapes) and joins encKey=encVal pairs with ampersands in order of the
RAW key (the JS default string sort), not the percent-encoded key; keys
of a JS object are unique, so no value tie-break is ever consulted.  The
last two segments never contain a raw ampersand, so the three segments
are recoverable. -/
theorem C1_base_string_three_segments_raw_key_order
    (method url : String) (params : List (String × String))
    (hm : '&' ∉ (upperCase method).data)
    (hk : (params.map Prod.fst).Nodup) :
    buildBaseString method url params =
      upperCase method ++ "&" ++ percentEncode url ++ "&" ++
        percentEncode (rawKeySortedParamString params) ∧
    '&' ∉ (upperCase method).data ∧
    '&' ∉ (percentEncode url).data ∧
    '&' ∉ (percentEncode (rawKeySortedParamString params)).data ∧
    percentEncode " " = "%20" ∧
    percentEncode "!" = "%21" ∧
    percentEncode "*" = "%2A" ∧
    percentEncode (String.mk [Char.ofNat 39]) = "%27" ∧
    percentEncode "()" = "%28%29" ∧
    percentEncode "AZaz09-_.~" = "AZaz09-_.~" := by
  refine ⟨?_, hm, amp_not_mem_percentEncode url, amp_not_mem_percentEncode _,
    by decide, by decide, by decide, by decide, by decide, by decide⟩
  unfold buildBaseString
  rw [paramString_eq_rawKeySorted params hk]

/-- C1 witness: the amended theorem applied at GET, a concrete URL and a
two-entry parameter map. -/
theorem C1_witness :
    buildBaseString "GET" "https://x" [("b", "2"), ("a", "1")] =
      upperCase "GET" ++ "&" ++ percentEncode "https://x" ++ "&" ++
        percentEncode (rawKeySortedParamString [("b", "2"), ("a", "1")]) ∧
    '&' ∉ (upperCase "GET").data ∧
    '&' ∉ (percentEncode "https://x").data ∧
    '&' ∉ (percentEncode (rawKeySortedParamString [("b", "2"), ("a", "1")])).data ∧
    percentEncode " " = "%20" ∧
    percentEncode "!" = "%21" ∧
    percentEncode "*" = "%2A" ∧
    percentEncode (String.mk [Char.ofNat 39]) = "%27" ∧
    percentEncode "()" = "%28%29" ∧
    percentEncode "AZaz09-_.~" = "AZaz09-_.~" :=
  C1_base_string_three_segments_raw_key_order "GET" "https://x"
    [("b", "2"), ("a", "1")] (by decide) (by decide)

/-- C1 counterexample: the claim orders entries by the percent-encoded
key, but the source sorts the raw keys; on the key set containing a dot
and a slash the two orders disagree, so the base string of the claim
differs from the one the signer produces. -/
theorem C1_counterexample :
    buildBaseString "GET" "https://x" [(".", ""), ("/", "")] ≠
      claimBaseStringEncSorted "GET" "https://x" [(".", ""), ("/", "")] := by decide

-- ## C2: the OAuth2 token cache

/-- C2 (amended): with credentials configured, `getOAuth2Token` returns a
truthy cached token without any network call whenever `now` is below the
STORED expiry, which already includes the 60-second safety margin
subtracted at caching time (equivalently, now is below the upstream
expiry minus the margin); otherwise it performs the grant and on success
caches the token with expiry `now + (expiresIn - 60) * 1000` ms and
returns it, while on a non-success HTTP status it fails with an error
carrying the status and body and leaves the cached token and expiry
unchanged. -/
theorem C2_token_cache_margin_at_store_time (st : ServerState) (now : Int)
    (grant : TokenFetchOutcome) (hcreds : hasApiCredentials st = true) :
    (∀ t, st.oauth2Token = some t → t ≠ "" → now < st.oauth2TokenExpiry →
      getOAuth2Token st now grant = ⟨.token t, st, false⟩) ∧
    (oauth2CacheFresh st now = false →
      (∀ tok expiresIn, grant = .ok tok expiresIn →
        getOAuth2Token st now grant =
          ⟨.token tok,
            { st with oauth2Token := some tok,
                      oauth2TokenExpiry := now + (expiresIn - 60) * 1000 }, true⟩) ∧
      (∀ s b, grant = .httpError s b →
        getOAuth2Token st now grant = ⟨.err (.upstream s b), st, true⟩)) := by
  constructor
  · intro t ht hne hlt
    have hfresh : oauth2CacheFresh st now = true := by
      simp [oauth2CacheFresh, truthy, ht, hne, hlt]
    simp [getOAuth2Token, hcreds, hfresh, ht]
  · intro hstale
    constructor
    · intro tok expiresIn hg
      subst hg
      simp [getOAuth2Token, hcreds, hstale]
    · intro s b hg
      subst hg
      simp [getOAuth2Token, hcreds, hstale]

/-- C2 witness: a fresh cached token is returned without a network call,
and an empty cache triggers a grant that is cached with the margin
applied at store time. -/
theorem C2_witness :
    getOAuth2Token stCached 50000 (.ok "U" 3600) = ⟨.token "T", stCached, false⟩ ∧
    getOAuth2Token stConfigured 50000 (.ok "U" 3600) =
      ⟨.token "U",
        { stConfigured with oauth2Token := some "U",
                            oauth2TokenExpiry := 50000 + (3600 - 60) * 1000 }, true⟩ :=
  ⟨(C2_token_cache_margin_at_store_time stCached 50000 (.ok "U" 3600)
      (by decide)).1 "T" rfl (by decide) (by decide),
   ((C2_token_cache_margin_at_store_time stConfigured 50000 (.ok "U" 3600)
      (by decide)).2 (by decide)).1 "U" 3600 rfl⟩

/-- C2 counterexample: the cached token "T" is stored to expire at
100000 ms and the clock reads 50000 ms.  Read literally, the claim guard
`now < expiresAt - margin` is false (50000 is not below 40000), so the
claim mandates a fresh grant; the source instead compares `now` against
the stored expiry directly (the margin was already subtracted when the
value was stored), returns the cached token and makes no network
call. -/
theorem C2_counterexample :
    (getOAuth2Token stCached 50000 (.ok "U" 3600)).networkCalled = false ∧
    (getOAuth2Token stCached 50000 (.ok "U" 3600)).outcome = .token "T" ∧
    (claimGetOAuth2Token stCached 50000 (.ok "U" 3600)).networkCalled = true ∧
    (claimGetOAuth2Token stCached 50000 (.ok "U" 3600)).outcome = .token "U" ∧
    ¬((50000 : Int) < stCached.oauth2TokenExpiry - 60 * 1000) := by decide

-- ## C3: concurrent getOAuth2Token calls

/-- C3 (amended): the source has no single-flight guard.  With no token
cached, in the cooperative interleaving where two concurrent callers
both check the cache before either grant response lands (schedule
0,1,0,1), TWO upstream grant calls are issued, each caller returns the
token of its own grant, and the second grant to complete is what stays
cached. -/
theorem C3_no_single_flight (st : ServerState) (h : st.oauth2Token = none)
    (t0 t1 : String) (expiresIn now : Int) :
    (runSchedule [t0, t1] expiresIn now [0, 1, 0, 1]
        ⟨st, [⟨0, none⟩, ⟨0, none⟩], 0⟩).grants = 2 ∧
    (runSchedule [t0, t1] expiresIn now [0, 1, 0, 1]
        ⟨st, [⟨0, none⟩, ⟨0, none⟩], 0⟩).callers =
      [⟨2, some t0⟩, ⟨2, some t1⟩] ∧
    (runSchedule [t0, t1] expiresIn now [0, 1, 0, 1]
        ⟨st, [⟨0, none⟩, ⟨0, none⟩], 0⟩).st.oauth2Token = some t1 := by
  obtain ⟨cid, csec, tok, exp, creds, pend, cfg⟩ := st
  simp only at h
  subst h
  exact ⟨rfl, rfl, rfl⟩

/-- C3 witness: the amended theorem at the configured sample state with
concrete grant tokens. -/
theorem C3_witness :
    (runSchedule ["t0", "t1"] 3600 0 [0, 1, 0, 1]
        ⟨stConfigured, [⟨0, none⟩, ⟨0, none⟩], 0⟩).grants = 2 ∧
    (runSchedule ["t0", "t1"] 3600 0 [0, 1, 0, 1]
        ⟨stConfigured, [⟨0, none⟩, ⟨0, none⟩], 0⟩).callers =
      [⟨2, some "t0"⟩, ⟨2, some "t1"⟩] ∧
    (runSchedule ["t0", "t1"] 3600 0 [0, 1, 0, 1]
        ⟨stConfigured, [⟨0, none⟩, ⟨0, none⟩], 0⟩).st.oauth2Token = some "t1" :=
  C3_no_single_flight stConfigured rfl "t0" "t1" 3600 0

/-- C3 counterexample: two concurrent callers over an empty cache, both
checking before either grant lands: the grant counter reaches 2, not
exactly 1, and the callers do not all receive the same token. -/
theorem C3_counterexample :
    (runSchedule ["t0", "t1"] 3600 0 [0, 1, 0, 1] concTwoCallers).grants = 2 ∧
    (runSchedule ["t0", "t1"] 3600 0 [0, 1, 0, 1] concTwoCallers).callers.map
        CallerView.result = [some "t0", some "t1"] ∧
    ¬(runSchedule ["t0", "t1"] 3600 0 [0, 1, 0, 1] concTwoCallers).grants = 1 ∧
    ¬(some "t0" = some "t1") := by decide

-- ## C4: protected calls without a user token

/-- C4 (amended): a profile call attempted while the user access token or
its secret is absent (or empty) is rejected by the middleware before any
network call — the remote call counter stays zero and an error is
thrown; the error is the unauthorized (not-authenticated) one whenever
the consumer API credentials are configured, and the not-configured one
when they are missing as well (still before any network call). -/
theorem C4_unauthorized_before_network (st : ServerState)
    (nonce timestamp method urlPath : String)
    (existingParams : List (String × String))
    (h : truthy st.oauth1Credentials.accessToken = false ∨
         truthy st.oauth1Credentials.accessTokenSecret = false) :
    (profileCall st nonce timestamp method urlPath existingParams).2 = 0 ∧
    (∃ e, (profileCall st nonce timestamp method urlPath existingParams).1 =
      .errored e) ∧
    (hasApiCredentials st = true →
      (profileCall st nonce timestamp method urlPath existingParams).1 =
        .errored .notAuthenticated) := by
  by_cases hc : hasApiCredentials st = true
  · have hguard : (truthy st.oauth1Credentials.accessToken &&
        truthy st.oauth1Credentials.accessTokenSecret) = false := by
      rcases h with h | h <;> simp [h]
    have he : ensureProfileAuth st = some .notAuthenticated := by
      simp [ensureProfileAuth, hc, hguard]
    refine ⟨?_, ⟨.notAuthenticated, ?_⟩, fun _ => ?_⟩ <;>
      simp [profileCall, he]
  · have hc' : hasApiCredentials st = false := by
      cases hval : hasApiCredentials st
      · rfl
      · exact absurd hval hc
    have he : ensureProfileAuth st = some .notConfigured := by
      simp [ensureProfileAuth, hc']
    exact ⟨by simp [profileCall, he], ⟨.notConfigured, by simp [profileCall, he]⟩,
      fun hcontra => absurd hcontra hc⟩

/-- C4 witness: the amended theorem at a configured state with no user
token: zero remote calls and the unauthorized error. -/
theorem C4_witness :
    (profileCall stConfigured "n" "1" "GET" "/profile/v1" []).2 = 0 ∧
    (profileCall stConfigured "n" "1" "GET" "/profile/v1" []).1 =
      .errored .notAuthenticated :=
  ⟨(C4_unauthorized_before_network stConfigured "n" "1" "GET" "/profile/v1" []
      (Or.inl rfl)).1,
   (C4_unauthorized_before_network stConfigured "n" "1" "GET" "/profile/v1" []
      (Or.inl rfl)).2.2 (by decide)⟩

/-- C4 counterexample: on a Tenant with no consumer credentials at all,
a protected call still fails before any network call, but with the
not-configured error rather than the claimed unauthorized error. -/
theorem C4_counterexample :
    (profileCall stEmpty "n" "1" "GET" "/profile/v1" []).1 =
      .errored .notConfigured ∧
    ProfileAuthError.notConfigured ≠ ProfileAuthError.notAuthenticated ∧
    (profileCall stEmpty "n" "1" "GET" "/profile/v1" []).2 = 0 := by decide

-- ## C5: start_auth signing in the Authorized state

/-- C5: the claim (and the spec) require the request-token call to be
signed with consumer-only credentials in every state, including
Authorized.  The source passes the full credential object through, so in
the Authorized state the signed parameter set DOES contain oauth_token
and the signing key DOES embed the user token secret, for every nonce
and timestamp; the oauth_callback=oob parameter is present as the claim
says.  This demonstrates the code bug at the failing input. -/
theorem C5_start_auth_reuses_user_token (nonce timestamp : String) :
    ("oauth_token", "A") ∈ (requestTokenSigned authorizedCreds nonce timestamp).params ∧
    (requestTokenSigned authorizedCreds nonce timestamp).signingKey = "cs&S" ∧
    ("oauth_callback", "oob") ∈
      (requestTokenSigned authorizedCreds nonce timestamp).params := by
  refine ⟨?_, rfl, ?_⟩ <;>
    simp [requestTokenSigned, buildOAuth1Params, jsMerge, authorizedCreds, truthy,
      List.lookup]

-- ## C6: complete_auth error handling

/-- C6: complete_auth fails with the no-pending error, without any
network call and without touching the state, when no pending request
token exists; on an upstream exchange failure the state (in particular
the pending token) is preserved unchanged; only on success are the
pending token cleared and the user access token installed in the live
credentials and in the persisted record. -/
theorem C6_complete_auth_pending_lifecycle (st : ServerState)
    (upstream : ExchangeOutcome) :
    (st.pendingOAuth = none →
      complete_auth st upstream = ⟨.noPending, st, false⟩) ∧
    (∀ p, st.pendingOAuth = some p →
      (∀ s b, upstream = .httpError s b →
        complete_auth st upstream = ⟨.upstreamError s b, st, true⟩) ∧
      (∀ tok sec, upstream = .ok tok sec →
        (complete_auth st upstream).outcome = .success ∧
        (complete_auth st upstream).state.pendingOAuth = none ∧
        (complete_auth st upstream).state.oauth1Credentials.accessToken = some tok ∧
        (complete_auth st upstream).state.oauth1Credentials.accessTokenSecret =
          some sec ∧
        (complete_auth st upstream).state.config.accessToken = some tok ∧
        (complete_auth st upstream).state.config.accessTokenSecret = some sec)) := by
  constructor
  · intro hnone
    simp [complete_auth, hnone]
  · intro p hp
    constructor
    · intro s b hg
      subst hg
      simp [complete_auth, hp]
    · intro tok sec hg
      subst hg
      simp [complete_auth, hp, saveConfig, mergeConfig, mergeField]

/-- C6 witness: no-pending rejection, upstream-failure preservation, and
successful installation, each at a concrete state. -/
theorem C6_witness :
    complete_auth stConfigured (.ok "x" "y") = ⟨.noPending, stConfigured, false⟩ ∧
    complete_auth stPending (.httpError 401 "denied") =
      ⟨.upstreamError 401 "denied", stPending, true⟩ ∧
    (complete_auth stPending (.ok "at1" "as1")).state.pendingOAuth = none ∧
    (complete_auth stPending (.ok "at1" "as1")).state.oauth1Credentials.accessToken =
      some "at1" ∧
    (complete_auth stPending (.ok "at1" "as1")).state.config.accessToken = some "at1" := by
  obtain ⟨h1, -⟩ := C6_complete_auth_pending_lifecycle stConfigured (.ok "x" "y")
  obtain ⟨-, h2⟩ := C6_complete_auth_pending_lifecycle stPending (.httpError 401 "denied")
  obtain ⟨-, h3⟩ := C6_complete_auth_pending_lifecycle stPending (.ok "at1" "as1")
  obtain ⟨he, -⟩ := h2 ("rt", "rs") rfl
  obtain ⟨-, hs⟩ := h3 ("rt", "rs") rfl
  obtain ⟨-, hp, ht, -, hc, -⟩ := hs "at1" "as1" rfl
  exact ⟨h1 rfl, he 401 "denied" rfl, hp, ht, hc⟩

-- ## C7: a second start overwrites the pending token

/-- C7: starting authorization twice installs the second request token as
the only pending token; the exchange performed by complete_auth is
signed against token B (the oauth_token parameter of the signed exchange
is B, and it is not A), so a verifier tied to token A can never be
exchanged against token A. -/
theorem C7_second_start_overwrites (st : ServerState)
    (A As B Bs verifier nonce timestamp : String)
    (hcreds : hasApiCredentials st = true) (hB : B ≠ "") (hAB : A ≠ B) :
    (start_auth (start_auth st (.ok A As)).state (.ok B Bs)).state.pendingOAuth =
      some (B, Bs) ∧
    completeAuthExchange (start_auth (start_auth st (.ok A As)).state (.ok B Bs)).state
        verifier nonce timestamp =
      some (accessTokenSigned st.oauth1Credentials B Bs verifier nonce timestamp) ∧
    ("oauth_token", B) ∈
      (accessTokenSigned st.oauth1Credentials B Bs verifier nonce timestamp).params ∧
    ("oauth_token", A) ∉
      (accessTokenSigned st.oauth1Credentials B Bs verifier nonce timestamp).params := by
  have h1 : (start_auth st (.ok A As)).state =
      { st with pendingOAuth := some (A, As) } := by
    simp [start_auth, hcreds]
  have hcreds1 : hasApiCredentials { st with pendingOAuth := some (A, As) } = true :=
    hcreds
  have h2 : (start_auth (start_auth st (.ok A As)).state (.ok B Bs)).state =
      { st with pendingOAuth := some (B, Bs) } := by
    rw [h1]
    simp [start_auth, hcreds1]
  refine ⟨by rw [h2], by rw [h2]; rfl, ?_, ?_⟩
  · simp [accessTokenSigned, buildOAuth1Params, jsMerge, truthy, hB, List.lookup]
  · simp [accessTokenSigned, buildOAuth1Params, jsMerge, truthy, hB, hAB, List.lookup]

/-- C7 witness: the theorem at the configured sample state with request
tokens ra and rb. -/
theorem C7_witness :
    (start_auth (start_auth stConfigured (.ok "ra" "rsa")).state
        (.ok "rb" "rsb")).state.pendingOAuth = some ("rb", "rsb") ∧
    completeAuthExchange
        (start_auth (start_auth stConfigured (.ok "ra" "rsa")).state
          (.ok "rb" "rsb")).state "v" "n" "1" =
      some (accessTokenSigned stConfigured.oauth1Credentials "rb" "rsb" "v" "n" "1") ∧
    ("oauth_token", "rb") ∈
      (accessTokenSigned stConfigured.oauth1Credentials "rb" "rsb" "v" "n" "1").params ∧
    ("oauth_token", "ra") ∉
      (accessTokenSigned stConfigured.oauth1Credentials "rb" "rsb" "v" "n" "1").params :=
  C7_second_start_overwrites stConfigured "ra" "rsa" "rb" "rsb" "v" "n" "1"
    (by decide) (by decide) (by decide)

-- ## C8: the persisted-record merge

/-- C8: saveConfig performs a read-modify-write: every field absent from
the update keeps its existing persisted value (nothing is dropped), and
every field present in the update takes the new value. -/
theorem C8_saveConfig_merges (st : ServerState) (updates : Config) :
    (updates.clientId = none →
      (saveConfig st updates).config.clientId = st.config.clientId) ∧
    (updates.clientSecret = none →
      (saveConfig st updates).config.clientSecret = st.config.clientSecret) ∧
    (updates.consumerSecret = none →
      (saveConfig st updates).config.consumerSecret = st.config.consumerSecret) ∧
    (updates.accessToken = none →
      (saveConfig st updates).config.accessToken = st.config.accessToken) ∧
    (updates.accessTokenSecret = none →
      (saveConfig st updates).config.accessTokenSecret = st.config.accessTokenSecret) ∧
    (∀ x, updates.accessToken = some x →
      (saveConfig st updates).config.accessToken = some x) ∧
    (∀ x, updates.clientId = some x →
      (saveConfig st updates).config.clientId = some x) := by
  refine ⟨fun h => ?_, fun h => ?_, fun h => ?_, fun h => ?_, fun h => ?_,
    fun x h => ?_, fun x h => ?_⟩ <;>
    simp [saveConfig, mergeConfig, mergeField, h]

/-- C8 witness: persisting only an access token over a record already
holding a clientId yields a record containing both fields. -/
theorem C8_witness :
    (saveConfig stClientIdOnly { accessToken := some "X" }).config.clientId =
      some "Y" ∧
    (saveConfig stClientIdOnly { accessToken := some "X" }).config.accessToken =
      some "X" := by
  obtain ⟨h1, -, -, -, -, h6, -⟩ :=
    C8_saveConfig_merges stClientIdOnly { accessToken := some "X" }
  exact ⟨(h1 rfl).trans rfl, h6 "X" rfl⟩

-- ## C9: the session registry

theorem lookup_closeSession (sessions : SessionRegistry) (sid : String) :
    (closeSession sessions sid).lookup sid = none := by
  induction sessions with
  | nil => rfl
  | cons p t ih =>
    by_cases hp : p.1 = sid
    · have hb : (p.1 != sid) = false := by simp [hp]
      simp only [closeSession, List.filter_cons, hb] at ih ⊢
      simpa using ih
    · have hb : (p.1 != sid) = true := by simp [hp]
      have hs : (sid == p.1) = false := beq_eq_false_iff_ne.mpr (Ne.symm hp)
      simp only [closeSession, List.filter_cons, hb, if_true] at ih ⊢
      simp only [List.lookup, hs]
      exact ih

/-- C9: routing a request that names a session id absent from the
registry answers with the 404 session-not-found JSON-RPC error response
(code -32000) instead of crashing, and closing a session removes its
Tenant from the registry, so routing to a closed id also answers
session-not-found. -/
theorem C9_route_unknown_session (sessions : SessionRegistry) (sid : String) :
    (sessions.lookup sid = none →
      route sessions (some sid) = .notFound 404 (-32000)) ∧
    (closeSession sessions sid).lookup sid = none ∧
    route (closeSession sessions sid) (some sid) = .notFound 404 (-32000) := by
  refine ⟨fun h => ?_, lookup_closeSession sessions sid, ?_⟩
  · simp [route, h]
  · simp [route, lookup_closeSession sessions sid]

/-- C9 witness: an id never registered, and a closed id, both answer
session-not-found. -/
theorem C9_witness :
    route [("a", stEmpty)] (some "b") = .notFound 404 (-32000) ∧
    (closeSession [("a", stEmpty)] "a").lookup "a" = none ∧
    route (closeSession [("a", stEmpty)] "a") (some "a") = .notFound 404 (-32000) :=
  ⟨(C9_route_unknown_session [("a", stEmpty)] "b").1 (by decide),
   (C9_route_unknown_session [("a", stEmpty)] "a").2.1,
   (C9_route_unknown_session [("a", stEmpty)] "a").2.2⟩

-- ## C10: setup_credentials frame

/-- C10: setup_credentials updates and persists the consumer credentials
while leaving the user access token, its secret, their persisted copies
and the pending request token unchanged, and it invalidates the cached
OAuth2 bearer token (token cleared, expiry zeroed), so any subsequent
public call with the new non-empty credentials necessarily performs a
fresh grant (network call true for every clock and grant outcome). -/
theorem C10_setup_credentials_frame (st : ServerState) (cid csec cons : String) :
    (setup_credentials st cid csec cons).oauth1Credentials.accessToken =
      st.oauth1Credentials.accessToken ∧
    (setup_credentials st cid csec cons).oauth1Credentials.accessTokenSecret =
      st.oauth1Credentials.accessTokenSecret ∧
    (setup_credentials st cid csec cons).config.accessToken = st.config.accessToken ∧
    (setup_credentials st cid csec cons).config.accessTokenSecret =
      st.config.accessTokenSecret ∧
    (setup_credentials st cid csec cons).pendingOAuth = st.pendingOAuth ∧
    (setup_credentials st cid csec cons).oauth2Token = none ∧
    (setup_credentials st cid csec cons).oauth2TokenExpiry = 0 ∧
    (setup_credentials st cid csec cons).clientId = cid ∧
    (setup_credentials st cid csec cons).clientSecret = csec ∧
    (setup_credentials st cid csec cons).oauth1Credentials.consumerKey = cid ∧
    (setup_credentials st cid csec cons).oauth1Credentials.consumerSecret = cons ∧
    (setup_credentials st cid csec cons).config.clientId = some cid ∧
    (setup_credentials st cid csec cons).config.clientSecret = some csec ∧
    (setup_credentials st cid csec cons).config.consumerSecret = some cons ∧
    (cid ≠ "" → csec ≠ "" → cons ≠ "" → ∀ (now : Int) (grant : TokenFetchOutcome),
      (getOAuth2Token (setup_credentials st cid csec cons) now grant).networkCalled =
        true) := by
  refine ⟨rfl, rfl, rfl, rfl, rfl, rfl, rfl, rfl, rfl, rfl, rfl, rfl, rfl, rfl, ?_⟩
  intro h1 h2 h3 now grant
  have hc : hasApiCredentials (setup_credentials st cid csec cons) = true := by
    simp [hasApiCredentials, setup_credentials, saveConfig, h1, h2, h3]
  have hf : oauth2CacheFresh (setup_credentials st cid csec cons) now = false := by
    simp [oauth2CacheFresh, setup_credentials, saveConfig, truthy]
  cases grant with
  | ok tok expiresIn => simp [getOAuth2Token, hc, hf]
  | httpError s b => simp [getOAuth2Token, hc, hf]

/-- C10 witness: the frame theorem at the empty state with concrete
credentials, including the forced fresh grant. -/
theorem C10_witness :
    (setup_credentials stEmpty "id" "sec" "cs").oauth1Credentials.accessToken =
      stEmpty.oauth1Credentials.accessToken ∧
    (setup_credentials stEmpty "id" "sec" "cs").oauth2Token = none ∧
    (getOAuth2Token (setup_credentials stEmpty "id" "sec" "cs") 0
        (.ok "t" 3600)).networkCalled = true := by
  obtain ⟨h1, -, -, -, -, h6, -, -, -, -, -, -, -, -, hlast⟩ :=
    C10_setup_credentials_frame stEmpty "id" "sec" "cs"
  exact ⟨h1, h6, hlast (by decide) (by decide) (by decide) 0 (.ok "t" 3600)⟩
